import Mathlib

/-!
Shallow embedding of the QAM modulation/demodulation core of the
ecs301-qam repository (src/src/utils/qam.py, src/src/utils/models.py and
the length-alignment call pattern of src/src/qamod/__main__.py).

Real-valued numpy arrays are modelled as `List ℝ`, complex arrays as
`List ℂ`; float32 rounding is idealized to exact real arithmetic.
Python exceptions are modelled by `Except QamError`.
-/

namespace QAM

/-- The universe of failure outcomes used in the development.  The first
three are the exceptions the Python code can actually raise (numpy or
scipy `ValueError`, Python `ZeroDivisionError`, Python `UnboundLocalError`
for the unassigned `freq` variable); the last three are the error kinds
named by the specification, which no code in the repository defines or
raises.  Keeping them in the same type makes the spec's error claims
statable. -/
inductive QamError where
  | valueError
  | zeroDivisionError
  | unboundLocalError
  | invalidInputError
  | lengthMismatchError
  | unstableFilterError
deriving DecidableEq, Repr

/-- Model `CarrierFrequency` from src/src/utils/models.py: a magnitude and
a unit string. -/
structure CarrierFrequency where
  value : ℝ
  unit : String

/-- Python's `str.lower()` for the ASCII unit strings used by the model:
per-character lowercasing. -/
def strLower (s : String) : String := String.mk (s.data.map Char.toLower)

/-- The `check_unit` field validator of `CarrierFrequency`
(src/src/utils/models.py lines 69-76): lowercases the unit and rejects it
with a `ValueError` unless the result is "khz" or "mhz". -/
def check_unit (v : String) : Except QamError String :=
  if strLower v = "khz" ∨ strLower v = "mhz" then .ok (strLower v)
  else .error .valueError

/-- Pydantic validation of a `CarrierFrequency`: the only field validator
is `check_unit` on the unit; the value field is stored unvalidated. -/
def CarrierFrequency.validate (value : ℝ) (unit : String) :
    Except QamError CarrierFrequency :=
  match check_unit unit with
  | .error e => .error e
  | .ok u => .ok ⟨value, u⟩

/-- numpy broadcasting of a binary elementwise operation on 1-D arrays:
equal lengths combine pointwise, a length-1 operand is stretched to the
other operand's length, and any other length mismatch is an error
(`none`, raised as a `ValueError` by numpy). -/
def broadcast {α : Type} (op : α → α → α) (a b : List α) :
    Option (List α) :=
  if a.length = b.length then some (List.zipWith op a b)
  else if a.length = 1 then some (b.map (fun y => op (a.headD y) y))
  else if b.length = 1 then some (a.map (fun x => op x (b.headD x)))
  else none

noncomputable section

/-- The carrier-frequency unit resolution performed at the top of both
`qam_modulation` and `demodulate_signal` (src/src/utils/qam.py lines
44-47 and 91-94): `freq` is assigned `value * 1e3` for "khz" and
`value * 1e6` for "mhz", and is left unassigned otherwise. -/
def resolveFreq (cf : CarrierFrequency) : Option ℝ :=
  if cf.unit = "khz" then some (cf.value * 1e3)
  else if cf.unit = "mhz" then some (cf.value * 1e6)
  else none

/-- Embedding of `qam_modulation` from src/src/utils/qam.py lines 29-73: build the
normalized time vector `t[i] = i / N` with `N = len(signal1)`, the
in-phase carrier `cos(2π f t)` and quadrature carrier `-j sin(2π f t)`,
multiply each input by its carrier under numpy broadcasting, and add the
two products under numpy broadcasting.  An unrecognized unit leaves
`freq` unassigned, surfacing as an `UnboundLocalError`. -/
def qam_modulation (signal1 signal2 : List ℝ) (cf : CarrierFrequency) :
    Except QamError (List ℂ) :=
  match resolveFreq cf with
  | none => .error .unboundLocalError
  | some freq =>
    let N := signal1.length
    let t : List ℝ := (List.range N).map fun i : ℕ => (i : ℝ) / (N : ℝ)
    let c1 : List ℂ := t.map fun x => ((Real.cos (2 * Real.pi * freq * x) : ℝ) : ℂ)
    let c2 : List ℂ := t.map fun x => -Complex.I * ((Real.sin (2 * Real.pi * freq * x) : ℝ) : ℂ)
    match broadcast (· * ·) (signal1.map Complex.ofReal) c1 with
    | none => .error .valueError
    | some ms1 =>
      match broadcast (· * ·) (signal2.map Complex.ofReal) c2 with
      | none => .error .valueError
      | some ms2 =>
        match broadcast (· + ·) ms1 ms2 with
        | none => .error .valueError
        | some out => .ok out

/-- Embedding of `upsample_signal` from src/src/utils/qam.py lines 7-26:
`np.pad(signal, (0, target_length - len(signal)), mode="constant")`, i.e.
right-padding with zeros.  A negative pad width (target shorter than the
signal) makes `np.pad` raise a `ValueError`. -/
def upsample_signal (signal : List ℝ) (target_length : ℤ) :
    Except QamError (List ℝ) :=
  if target_length - (signal.length : ℤ) < 0 then .error .valueError
  else .ok (signal ++ List.replicate (target_length - (signal.length : ℤ)).toNat (0 : ℝ))

/-- The length-alignment step performed by the caller in
src/src/qamod/__main__.py lines 42-45: whichever signal is shorter is
upsampled (zero-padded) to the other's length; equal lengths leave both
unchanged. -/
def align (a b : List ℝ) : Except QamError (List ℝ × List ℝ) :=
  if a.length < b.length then
    match upsample_signal a (b.length : ℤ) with
    | .error e => .error e
    | .ok a2 => .ok (a2, b)
  else if b.length < a.length then
    match upsample_signal b (a.length : ℤ) with
    | .error e => .error e
    | .ok b2 => .ok (a, b2)
  else .ok (a, b)

/-- Coefficients of scipy's `butter(1, wn, btype="low", analog=False)`:
the order-1 analog Butterworth prototype `1/(s+1)` frequency-warped and
discretized by the bilinear transform.  With `w = tan(π wn / 2)` this
gives numerator `[w/(1+w), w/(1+w)]` and denominator `[1, (w-1)/(w+1)]`.
Returned as `((b0, b1), (a0, a1))`. -/
def butter1 (wn : ℝ) : (ℝ × ℝ) × (ℝ × ℝ) :=
  let w := Real.tan (Real.pi * wn / 2)
  ((w / (1 + w), w / (1 + w)), (1, (w - 1) / (w + 1)))

/-- scipy's `lfilter(b, a, x)` for first-order coefficient vectors
`b = [b0, b1]`, `a = [a0, a1]` with zero initial conditions: the causal
recursion `a0 y[n] = b0 x[n] + b1 x[n-1] - a1 y[n-1]`.  The extra
arguments carry the previous input and output samples. -/
def lfilter1 (b0 b1 a0 a1 : ℝ) : List ℂ → ℂ → ℂ → List ℂ
  | [], _, _ => []
  | x :: xs, xp, yp =>
    let y := ((b0 : ℂ) * x + (b1 : ℂ) * xp - (a1 : ℂ) * yp) / (a0 : ℂ)
    y :: lfilter1 b0 b1 a0 a1 xs x y

/-- Embedding of `demodulate_signal` from src/src/utils/qam.py lines 76-111: rebuild
the carriers on the time base `t[i] = i / sampling_rate`, mix the
modulated signal with each carrier, design a first-order Butterworth
low-pass filter with normalized cutoff `2 * value / sampling_rate` (the
raw magnitude, before unit conversion), filter both mixed sequences, and
return their real parts.  A zero sampling rate makes the Python cutoff
expression raise `ZeroDivisionError`; a cutoff outside (0, 1) makes
scipy's `butter` raise `ValueError`; an unrecognized unit leaves `freq`
unassigned (`UnboundLocalError`). -/
def demodulate_signal (modulated : List ℂ) (cf : CarrierFrequency)
    (sampling_rate : ℤ) : Except QamError (List ℝ × List ℝ) :=
  match resolveFreq cf with
  | none => .error .unboundLocalError
  | some freq =>
    let t : List ℝ := (List.range modulated.length).map fun i : ℕ => (i : ℝ) / (sampling_rate : ℝ)
    let c1 : List ℂ := t.map fun x => ((Real.cos (2 * Real.pi * freq * x) : ℝ) : ℂ)
    let c2 : List ℂ := t.map fun x => -Complex.I * ((Real.sin (2 * Real.pi * freq * x) : ℝ) : ℂ)
    let d1 := List.zipWith (· * ·) modulated c1
    let d2 := List.zipWith (· * ·) modulated c2
    if sampling_rate = 0 then .error .zeroDivisionError
    else
      let wn : ℝ := 2 * cf.value / (sampling_rate : ℝ)
      if 0 < wn ∧ wn < 1 then
        let bc := butter1 wn
        let f1 := lfilter1 bc.1.1 bc.1.2 bc.2.1 bc.2.2 d1 0 0
        let f2 := lfilter1 bc.1.1 bc.1.2 bc.2.1 bc.2.2 d2 0 0
        .ok (f1.map Complex.re, f2.map Complex.re)
      else .error .valueError

end

/-- Spec-side description of the demodulator, written from section 4.3 of
the specification: rebuild the in-phase and quadrature carriers on the
time base `t[i] = i / sampling_rate`, mix the modulated signal with each,
filter both with the first-order Butterworth low-pass of normalized
cutoff `wn`, and take real parts.  It exists only to state the
refinement claim C2 against `demodulate_signal`. -/
noncomputable def demodulatorSpec (m : List ℂ) (f : ℝ) (sr : ℤ) (wn : ℝ) :
    List ℝ × List ℝ :=
  let t : List ℝ := (List.range m.length).map fun i : ℕ => (i : ℝ) / (sr : ℝ)
  let mixed1 := List.zipWith (fun x c => x * c) m
    (t.map fun x => ((Real.cos (2 * Real.pi * f * x) : ℝ) : ℂ))
  let mixed2 := List.zipWith (fun x c => x * c) m
    (t.map fun x => -Complex.I * ((Real.sin (2 * Real.pi * f * x) : ℝ) : ℂ))
  let bc := butter1 wn
  ((lfilter1 bc.1.1 bc.1.2 bc.2.1 bc.2.2 mixed1 0 0).map Complex.re,
   (lfilter1 bc.1.1 bc.1.2 bc.2.1 bc.2.2 mixed2 0 0).map Complex.re)

/-! ## Helper lemmas -/

theorem broadcast_same {α : Type} (op : α → α → α) (a b : List α)
    (h : a.length = b.length) :
    broadcast op a b = some (List.zipWith op a b) := by
  simp [broadcast, h]

theorem broadcast_mismatch {α : Type} (op : α → α → α) (a b : List α)
    (h : a.length ≠ b.length) (ha : a.length ≠ 1) (hb : b.length ≠ 1) :
    broadcast op a b = none := by
  simp [broadcast, h, ha, hb]

theorem broadcast_fst_one {α : Type} (op : α → α → α) (a b : List α)
    (ha : a.length = 1) (hb : b.length ≠ 1) :
    broadcast op a b = some (b.map (fun y => op (a.headD y) y)) := by
  have hne : a.length ≠ b.length := by omega
  have hb2 : ¬ (1 = b.length) := fun h => hb h.symm
  simp [broadcast, hne, ha, hb2]

theorem broadcast_snd_one {α : Type} (op : α → α → α) (a b : List α)
    (hb : b.length = 1) (ha : a.length ≠ 1) :
    broadcast op a b = some (a.map (fun x => op x (b.headD x))) := by
  have hne : a.length ≠ b.length := by omega
  simp [broadcast, hne, ha, hb]

theorem lfilter1_length (b0 b1 a0 a1 : ℝ) (xs : List ℂ) (xp yp : ℂ) :
    (lfilter1 b0 b1 a0 a1 xs xp yp).length = xs.length := by
  induction xs generalizing xp yp with
  | nil => rfl
  | cons x xs ih => simp [lfilter1, ih]

theorem zipWith_mul_replicate_zero_left (l : List ℂ) (n : ℕ)
    (h : n = l.length) :
    List.zipWith (· * ·) (List.replicate n (0 : ℂ)) l = List.replicate n (0 : ℂ) := by
  induction l generalizing n with
  | nil => subst h; rfl
  | cons x xs ih =>
    subst h
    simpa [List.replicate_succ] using ih xs.length rfl

theorem resolveFreq_recognized (cf : CarrierFrequency)
    (hu : cf.unit = "khz" ∨ cf.unit = "mhz") :
    resolveFreq cf =
      some (if cf.unit = "khz" then cf.value * 1e3 else cf.value * 1e6) := by
  rcases hu with h | h <;> simp [resolveFreq, h]

/-! ## Claim theorems -/

/-- C1: for equal-length real inputs of length `N` and a carrier spec with
recognized unit, `qam_modulation` returns a complex sequence of length `N`
whose sample `i` equals
`s1[i]·cos(2π f (i/N)) - j·s2[i]·sin(2π f (i/N))`, where `f` is the
magnitude converted to hertz (kilohertz ×1e3, megahertz ×1e6) and the
time base is the normalized `t[i] = i/N`. -/
theorem qam_modulation_sample_formula (s1 s2 : List ℝ) (cf : CarrierFrequency)
    (hlen : s1.length = s2.length)
    (hu : cf.unit = "khz" ∨ cf.unit = "mhz") :
    ∃ out : List ℂ,
      qam_modulation s1 s2 cf = .ok out ∧
      out.length = s1.length ∧
      ∀ i, i < s1.length →
        out.getD i 0 =
          (s1.getD i 0 : ℂ) *
            Complex.ofReal (Real.cos (2 * Real.pi *
              (if cf.unit = "khz" then cf.value * 1e3 else cf.value * 1e6) *
              ((i : ℝ) / (s1.length : ℝ)))) -
          Complex.I * (s2.getD i 0 : ℂ) *
            Complex.ofReal (Real.sin (2 * Real.pi *
              (if cf.unit = "khz" then cf.value * 1e3 else cf.value * 1e6) *
              ((i : ℝ) / (s1.length : ℝ)))) := by
  have hrf := resolveFreq_recognized cf hu
  simp only [qam_modulation, hrf, broadcast_same, List.length_map, List.length_range,
    List.length_zipWith, min_self, hlen]
  refine ⟨_, rfl, by simp [hlen], ?_⟩
  intro i hi
  have hi2 : i < s2.length := hlen ▸ hi
  have hi1 : i < s1.length := hlen ▸ hi2
  rw [List.getD_eq_getElem _ _ (by simp [hlen, hi2]), List.getD_eq_getElem s1 _ hi1,
    List.getD_eq_getElem s2 _ hi2]
  simp [List.getElem_zipWith, List.getElem_map, List.getElem_range, hlen]
  ring

/-- Witness for C1 at `s1 = [1]`, `s2 = [2]`, carrier 1 kHz. -/
theorem qam_modulation_sample_formula_witness :
    ∃ out : List ℂ,
      qam_modulation [1] [2] ⟨1, "khz"⟩ = .ok out ∧
      out.length = [(1 : ℝ)].length ∧
      ∀ i, i < [(1 : ℝ)].length →
        out.getD i 0 =
          ([(1 : ℝ)].getD i 0 : ℂ) *
            Complex.ofReal (Real.cos (2 * Real.pi *
              (if (CarrierFrequency.mk 1 "khz").unit = "khz" then
                (CarrierFrequency.mk 1 "khz").value * 1e3
               else (CarrierFrequency.mk 1 "khz").value * 1e6) *
              ((i : ℝ) / ([(1 : ℝ)].length : ℝ)))) -
          Complex.I * ([(2 : ℝ)].getD i 0 : ℂ) *
            Complex.ofReal (Real.sin (2 * Real.pi *
              (if (CarrierFrequency.mk 1 "khz").unit = "khz" then
                (CarrierFrequency.mk 1 "khz").value * 1e3
               else (CarrierFrequency.mk 1 "khz").value * 1e6) *
              ((i : ℝ) / ([(1 : ℝ)].length : ℝ)))) :=
  qam_modulation_sample_formula [1] [2] ⟨1, "khz"⟩ rfl (Or.inl rfl)

/-- C9: `qam_modulation` applied to two all-zero signals of length `N`
with a recognized carrier unit returns the all-zero complex sequence of
length `N`. -/
theorem qam_modulation_zero_input (N : ℕ) (cf : CarrierFrequency)
    (hu : cf.unit = "khz" ∨ cf.unit = "mhz") :
    qam_modulation (List.replicate N 0) (List.replicate N 0) cf =
      .ok (List.replicate N (0 : ℂ)) := by
  have hrf := resolveFreq_recognized cf hu
  simp only [qam_modulation, hrf, List.map_replicate, Complex.ofReal_zero,
    broadcast_same, List.length_replicate, List.length_map, List.length_range,
    List.length_zipWith, min_self]
  rw [zipWith_mul_replicate_zero_left _ _ (by simp),
    zipWith_mul_replicate_zero_left _ _ (by simp)]
  simp [List.zipWith_replicate, broadcast_same]

/-- Witness for C9 at `N = 2`, carrier 1 kHz. -/
theorem qam_modulation_zero_input_witness :
    qam_modulation (List.replicate 2 0) (List.replicate 2 0) ⟨1, "khz"⟩ =
      .ok (List.replicate 2 (0 : ℂ)) :=
  qam_modulation_zero_input 2 ⟨1, "khz"⟩ (Or.inl rfl)

/-- C3: for non-empty inputs with `a.length ≤ b.length`, alignment
returns `a` right-padded with zeros to the length of `b` together with `b`
unchanged, and both outputs have length `b.length`. -/
theorem align_pads_shorter (a b : List ℝ) (ha : a ≠ []) (hb : b ≠ [])
    (hle : a.length ≤ b.length) :
    align a b = .ok (a ++ List.replicate (b.length - a.length) (0 : ℝ), b) ∧
    (a ++ List.replicate (b.length - a.length) (0 : ℝ)).length = b.length := by
  constructor
  · rcases lt_or_eq_of_le hle with h | h
    · have hpad : ¬ ((b.length : ℤ) - (a.length : ℤ) < 0) := by omega
      have htn : ((b.length : ℤ) - (a.length : ℤ)).toNat = b.length - a.length := by
        omega
      simp [align, h, upsample_signal, hpad, htn]
    · have h1 : ¬ a.length < b.length := by omega
      have h2 : ¬ b.length < a.length := by omega
      simp [align, h1, h2, h]
  · simp
    omega

/-- Witness for C3 at the spec's own example:
`align([1,2],[1,2,3,4]) = ([1,2,0,0],[1,2,3,4])`. -/
theorem align_pads_shorter_witness :
    align [1, 2] [1, 2, 3, 4] = .ok ([1, 2, 0, 0], [1, 2, 3, 4]) ∧
    ([(1 : ℝ), 2, 0, 0]).length = [(1 : ℝ), 2, 3, 4].length :=
  align_pads_shorter [1, 2] [1, 2, 3, 4] (by simp) (by simp) (by decide)

/-- C2: for a non-empty modulated sequence, recognized carrier unit,
positive sampling rate and normalized cutoff `2·value/sr` inside (0, 1),
`demodulate_signal` succeeds, both outputs have the input's length, and
the result is exactly the spec-side demodulator: mixing on the time base
`i / sampling_rate`, first-order Butterworth low-pass at cutoff
`2·value/sr` (raw magnitude, before unit conversion), then real parts. -/
theorem demodulate_signal_characterization (m : List ℂ)
    (cf : CarrierFrequency) (sr : ℤ)
    (hm : m ≠ []) (hu : cf.unit = "khz" ∨ cf.unit = "mhz") (hsr : 0 < sr)
    (h0 : 0 < 2 * cf.value / (sr : ℝ)) (h1 : 2 * cf.value / (sr : ℝ) < 1) :
    ∃ r : List ℝ × List ℝ,
      demodulate_signal m cf sr = .ok r ∧
      r.1.length = m.length ∧ r.2.length = m.length ∧
      r = demodulatorSpec m
            (if cf.unit = "khz" then cf.value * 1e3 else cf.value * 1e6)
            sr (2 * cf.value / (sr : ℝ)) := by
  have hrf := resolveFreq_recognized cf hu
  have hsr0 : ¬ (sr = 0) := by omega
  simp only [demodulate_signal, hrf, hsr0, if_false, if_pos (And.intro h0 h1)]
  refine ⟨_, rfl, ?_, ?_, ?_⟩
  · simp [lfilter1_length]
  · simp [lfilter1_length]
  · simp [demodulatorSpec]

/-- Witness for C2 at `m = [1]`, carrier 1 kHz, sampling rate 1000. -/
theorem demodulate_signal_characterization_witness :
    ∃ r : List ℝ × List ℝ,
      demodulate_signal [1] ⟨1, "khz"⟩ 1000 = .ok r ∧
      r.1.length = [(1 : ℂ)].length ∧ r.2.length = [(1 : ℂ)].length ∧
      r = demodulatorSpec [1]
            (if (CarrierFrequency.mk 1 "khz").unit = "khz" then
              (CarrierFrequency.mk 1 "khz").value * 1e3
             else (CarrierFrequency.mk 1 "khz").value * 1e6)
            1000 (2 * (CarrierFrequency.mk 1 "khz").value / ((1000 : ℤ) : ℝ)) :=
  demodulate_signal_characterization [1] ⟨1, "khz"⟩ 1000 (by simp) (Or.inl rfl)
    (by norm_num) (by norm_num) (by norm_num)

/-- C5 (amended): when the normalized cutoff `2·value/sr` falls outside
the open interval (0, 1) and the sampling rate is nonzero,
`demodulate_signal` fails with the `ValueError` raised by scipy's
`butter` during filter construction; the code performs no prior
validation and no `UnstableFilterError` exists in the repository. -/
theorem demodulate_invalid_cutoff_value_error (m : List ℂ)
    (cf : CarrierFrequency) (sr : ℤ)
    (hu : cf.unit = "khz" ∨ cf.unit = "mhz") (hsr0 : ¬ sr = 0)
    (hw : ¬ (0 < 2 * cf.value / (sr : ℝ) ∧ 2 * cf.value / (sr : ℝ) < 1)) :
    demodulate_signal m cf sr = .error .valueError := by
  have hrf := resolveFreq_recognized cf hu
  simp only [demodulate_signal, hrf, hsr0, if_false, if_neg hw]

/-- Witness for the amended C5 at carrier value 500 (kHz unit tag),
sampling rate 1000: cutoff `2·500/1000 = 1` is outside (0, 1). -/
theorem demodulate_invalid_cutoff_value_error_witness :
    demodulate_signal [1] ⟨500, "khz"⟩ 1000 = .error .valueError :=
  demodulate_invalid_cutoff_value_error [1] ⟨500, "khz"⟩ 1000 (Or.inl rfl)
    (by decide) (by norm_num)

/-- Counterexample to C5 as stated: at carrier value 500 and sampling
rate 1000 the cutoff is 1, and the failure is the scipy `ValueError`,
not an `UnstableFilterError`. -/
theorem demodulate_unstable_filter_counterexample :
    demodulate_signal [1] ⟨500, "khz"⟩ 1000 = .error .valueError ∧
    demodulate_signal [1] ⟨500, "khz"⟩ 1000 ≠ .error .unstableFilterError := by
  have h : demodulate_signal [1] ⟨500, "khz"⟩ 1000 = .error .valueError := by
    simp only [demodulate_signal, resolveFreq]
    norm_num
  exact ⟨h, by rw [h]; simp⟩

/-- C6 (amended): with a recognized unit, modulation of inputs of
different lengths fails with the numpy broadcast `ValueError` exactly
when neither input has length one; when the first input has length one,
numpy broadcasting makes the call succeed silently. -/
theorem qam_modulation_length_mismatch_behavior :
    (∀ (s1 s2 : List ℝ) (cf : CarrierFrequency),
       cf.unit = "khz" ∨ cf.unit = "mhz" →
       s1.length ≠ s2.length → s1.length ≠ 1 → s2.length ≠ 1 →
       qam_modulation s1 s2 cf = .error .valueError) ∧
    (∀ (x : ℝ) (s2 : List ℝ) (cf : CarrierFrequency),
       cf.unit = "khz" ∨ cf.unit = "mhz" →
       ∃ out, qam_modulation [x] s2 cf = .ok out) := by
  constructor
  · intro s1 s2 cf hu hne h1 h2
    have hrf := resolveFreq_recognized cf hu
    simp [qam_modulation, hrf, broadcast_same, broadcast_mismatch, Ne.symm hne,
      h1, h2]
  · intro x s2 cf hu
    have hrf := resolveFreq_recognized cf hu
    rcases eq_or_ne s2.length 1 with h | h
    · simp only [qam_modulation, hrf, broadcast_same, List.length_map,
        List.length_range, List.length_zipWith, List.length_singleton, h,
        min_self]
      exact ⟨_, rfl⟩
    · simp only [qam_modulation, hrf, broadcast_same, broadcast_snd_one,
        broadcast_fst_one, List.length_map, List.length_range,
        List.length_zipWith, List.length_singleton, h, min_self,
        ne_eq, not_false_iff]
      exact ⟨_, rfl⟩

/-- Witness for the amended C6: lengths 2 and 3 fail with `ValueError`;
a length-1 first input against a length-2 second input succeeds. -/
theorem qam_modulation_length_mismatch_behavior_witness :
    qam_modulation [0, 0] [0, 0, 0] ⟨1, "khz"⟩ = .error .valueError ∧
    ∃ out, qam_modulation [(5 : ℝ)] [0, 0] ⟨1, "khz"⟩ = .ok out :=
  ⟨qam_modulation_length_mismatch_behavior.1 [0, 0] [0, 0, 0] ⟨1, "khz"⟩
      (Or.inl rfl) (by decide) (by decide) (by decide),
   qam_modulation_length_mismatch_behavior.2 5 [0, 0] ⟨1, "khz"⟩ (Or.inl rfl)⟩

/-- Counterexample to C6 as stated: `qam_modulation` on a length-1 and a
length-2 input does not fail at all (numpy broadcasting stretches the
shorter operand), let alone with a `LengthMismatchError`. -/
theorem qam_modulation_length_mismatch_counterexample :
    qam_modulation [0] [0, 0] ⟨1, "khz"⟩ = .ok [0, 0] ∧
    qam_modulation [0] [0, 0] ⟨1, "khz"⟩ ≠ .error .lengthMismatchError := by
  have h : qam_modulation [0] [0, 0] ⟨1, "khz"⟩ = .ok [0, 0] := by
    simp [qam_modulation, resolveFreq, broadcast, List.range_succ, List.range_zero, Function.comp]
  exact ⟨h, by rw [h]; simp⟩

/-- C7 (amended): neither the data model nor `qam_modulation` validates
the carrier magnitude: pydantic validation of `CarrierFrequency` accepts
any magnitude (only the unit is checked), and modulation succeeds for
non-positive magnitudes on equal-length inputs with a recognized unit. -/
theorem carrier_magnitude_unvalidated :
    (∀ v : ℝ, CarrierFrequency.validate v "khz" = .ok ⟨v, "khz"⟩) ∧
    (∀ (s1 s2 : List ℝ) (cf : CarrierFrequency),
       cf.unit = "khz" ∨ cf.unit = "mhz" → cf.value ≤ 0 →
       s1.length = s2.length →
       ∃ out, qam_modulation s1 s2 cf = .ok out) := by
  constructor
  · intro v
    rfl
  · intro s1 s2 cf hu hv hlen
    have hrf := resolveFreq_recognized cf hu
    simp only [qam_modulation, hrf, broadcast_same, List.length_map,
      List.length_range, List.length_zipWith, min_self, hlen]
    exact ⟨_, rfl⟩

/-- Witness for the amended C7 at magnitude -1. -/
theorem carrier_magnitude_unvalidated_witness :
    CarrierFrequency.validate (-1) "khz" = .ok ⟨-1, "khz"⟩ ∧
    ∃ out, qam_modulation [0] [0] ⟨-1, "khz"⟩ = .ok out :=
  ⟨carrier_magnitude_unvalidated.1 (-1),
   carrier_magnitude_unvalidated.2 [0] [0] ⟨-1, "khz"⟩ (Or.inl rfl)
     (by norm_num) rfl⟩

/-- Counterexample to C7 as stated: the model accepts magnitude -1 and
`qam_modulation` succeeds with it instead of failing with
`InvalidInputError`. -/
theorem carrier_magnitude_counterexample :
    CarrierFrequency.validate (-1) "kHz" = .ok ⟨-1, "khz"⟩ ∧
    qam_modulation [0] [0] ⟨-1, "khz"⟩ = .ok [0] ∧
    qam_modulation [0] [0] ⟨-1, "khz"⟩ ≠ .error .invalidInputError := by
  have h : qam_modulation [0] [0] ⟨-1, "khz"⟩ = .ok [0] := by
    simp [qam_modulation, resolveFreq, broadcast, List.range_succ, List.range_zero, Function.comp]
  exact ⟨rfl, h, by rw [h]; simp⟩

/-- C8 (amended): `align` and `demodulate_signal` perform no input
validation. `align` zero-pads an empty first input; `demodulate_signal`
returns empty outputs for an empty modulated sequence when the cutoff is
valid; a zero sampling rate fails with Python's `ZeroDivisionError` in
the cutoff expression; a negative sampling rate with positive carrier
value fails with the scipy filter-design `ValueError`. No
`InvalidInputError` is raised anywhere. -/
theorem no_invalid_input_validation :
    (∀ b : List ℝ, b ≠ [] →
       align [] b = .ok (List.replicate b.length 0, b)) ∧
    (∀ (cf : CarrierFrequency) (sr : ℤ),
       cf.unit = "khz" ∨ cf.unit = "mhz" → ¬ sr = 0 →
       0 < 2 * cf.value / (sr : ℝ) → 2 * cf.value / (sr : ℝ) < 1 →
       demodulate_signal [] cf sr = .ok ([], [])) ∧
    (∀ (m : List ℂ) (cf : CarrierFrequency),
       cf.unit = "khz" ∨ cf.unit = "mhz" →
       demodulate_signal m cf 0 = .error .zeroDivisionError) ∧
    (∀ (m : List ℂ) (cf : CarrierFrequency) (sr : ℤ),
       cf.unit = "khz" ∨ cf.unit = "mhz" → sr < 0 → 0 < cf.value →
       demodulate_signal m cf sr = .error .valueError) := by
  refine ⟨?_, ?_, ?_, ?_⟩
  · intro b hb
    have hlt : 0 < b.length := List.length_pos.mpr hb
    have hneg : ¬ ((b.length : ℤ) < 0) := by omega
    have htn : ((b.length : ℤ) - ((0 : ℕ) : ℤ)).toNat = b.length := by omega
    simp [align, hlt, upsample_signal, htn, hneg]
  · intro cf sr hu hsr0 h0 h1
    have hrf := resolveFreq_recognized cf hu
    simp only [demodulate_signal, hrf, hsr0, if_false,
      if_pos (And.intro h0 h1)]
    simp [lfilter1]
  · intro m cf hu
    have hrf := resolveFreq_recognized cf hu
    simp [demodulate_signal, hrf]
  · intro m cf sr hu hsr hv
    have hsr0 : ¬ (sr = 0) := by omega
    have hsrR : ((sr : ℤ) : ℝ) < 0 := by exact_mod_cast hsr
    have hwn : ¬ (0 < 2 * cf.value / (sr : ℝ) ∧ 2 * cf.value / (sr : ℝ) < 1) := by
      intro hcontra
      have hneg : 2 * cf.value / ((sr : ℤ) : ℝ) < 0 :=
        div_neg_of_pos_of_neg (by linarith) hsrR
      linarith [hcontra.1]
    have hrf := resolveFreq_recognized cf hu
    simp only [demodulate_signal, hrf, hsr0, if_false, if_neg hwn]

/-- Witness for the amended C8: concrete instances of all four parts. -/
theorem no_invalid_input_validation_witness :
    align [] [1] = .ok (List.replicate [(1 : ℝ)].length 0, [1]) ∧
    demodulate_signal [] ⟨1, "khz"⟩ 1000 = .ok ([], []) ∧
    demodulate_signal [1] ⟨1, "khz"⟩ 0 = .error .zeroDivisionError ∧
    demodulate_signal [1] ⟨1, "khz"⟩ (-1000) = .error .valueError :=
  ⟨no_invalid_input_validation.1 [1] (by simp),
   no_invalid_input_validation.2.1 ⟨1, "khz"⟩ 1000 (Or.inl rfl) (by decide)
     (by norm_num) (by norm_num),
   no_invalid_input_validation.2.2.1 [1] ⟨1, "khz"⟩ (Or.inl rfl),
   no_invalid_input_validation.2.2.2 [1] ⟨1, "khz"⟩ (-1000) (Or.inl rfl)
     (by decide) (by norm_num)⟩

/-- Counterexample to C8 as stated: `align` on an empty first input and
`demodulate_signal` on an empty modulated sequence both succeed instead
of failing with `InvalidInputError`. -/
theorem empty_input_no_error_counterexample :
    align [] [1] = .ok ([0], [1]) ∧
    align [] [1] ≠ .error .invalidInputError ∧
    demodulate_signal [] ⟨1, "khz"⟩ 1000 = .ok ([], []) ∧
    demodulate_signal [] ⟨1, "khz"⟩ 1000 ≠ .error .invalidInputError := by
  have h1 : align [] [1] = .ok ([0], [1]) := by
    simp [align, upsample_signal]
  have h2 : demodulate_signal [] ⟨1, "khz"⟩ 1000 = .ok ([], []) := by
    simp only [demodulate_signal, resolveFreq]
    norm_num [lfilter1]
  exact ⟨h1, by rw [h1]; simp, h2, by rw [h2]; simp⟩

/-- C10: any unit string accepted by the model's `check_unit` validator
resolves the `freq` variable in both `qam_modulation` and
`demodulate_signal`, so the unbound-variable failure on an unrecognized
unit is unreachable through validated carrier specs. -/
theorem validated_unit_resolves (u u2 : String) (h : check_unit u = .ok u2) :
    (∀ v : ℝ, (resolveFreq ⟨v, u2⟩).isSome) ∧
    (∀ (v : ℝ) (s1 s2 : List ℝ),
       qam_modulation s1 s2 ⟨v, u2⟩ ≠ .error .unboundLocalError) ∧
    (∀ (v : ℝ) (m : List ℂ) (sr : ℤ),
       demodulate_signal m ⟨v, u2⟩ sr ≠ .error .unboundLocalError) := by
  have hu : u2 = "khz" ∨ u2 = "mhz" := by
    by_cases hc : strLower u = "khz" ∨ strLower u = "mhz"
    · rw [check_unit, if_pos hc] at h
      rcases hc with hc | hc
      · exact Or.inl (by injection h with h2; rw [← h2, hc])
      · exact Or.inr (by injection h with h2; rw [← h2, hc])
    · rw [check_unit, if_neg hc] at h
      exact absurd h (by simp)
  refine ⟨?_, ?_, ?_⟩
  · intro v
    have hrf := resolveFreq_recognized ⟨v, u2⟩ hu
    simp [hrf]
  · intro v s1 s2
    have hrf := resolveFreq_recognized ⟨v, u2⟩ hu
    simp only [qam_modulation, hrf]
    split
    · simp
    · split
      · simp
      · split <;> simp
  · intro v m sr
    have hrf := resolveFreq_recognized ⟨v, u2⟩ hu
    simp only [demodulate_signal, hrf]
    split
    · simp
    · split <;> simp

/-- Witness for C10 at the mixed-case input unit "kHz". -/
theorem validated_unit_resolves_witness :
    (∀ v : ℝ, (resolveFreq ⟨v, "khz"⟩).isSome) ∧
    (∀ (v : ℝ) (s1 s2 : List ℝ),
       qam_modulation s1 s2 ⟨v, "khz"⟩ ≠ .error .unboundLocalError) ∧
    (∀ (v : ℝ) (m : List ℂ) (sr : ℤ),
       demodulate_signal m ⟨v, "khz"⟩ sr ≠ .error .unboundLocalError) :=
  validated_unit_resolves "kHz" "khz" rfl

end QAM
